import Mathlib

/-!
Verification development for the mssqlclient-mcp-server core
(`mssqlclient_mcp/type_mapper.py`, `mssqlclient_mcp/database_service.py`,
`mssqlclient_mcp/models.py`).

The Python sources are shallowly embedded as executable Lean definitions:
  * the typed parameter marshaling pipeline (`TYPE_MAPPING`,
    `validate_parameter`, `convert_python_to_sql`,
    `convert_parameters_for_execution`);
  * the background session registry (`SessionManager`: `start_query`,
    `start_stored_procedure`, the worker terminal writes, `cancel_session`,
    `cleanup_completed_sessions`), with reachability given by an event step
    function;
  * the capability cache (`CapabilityDetector.get_capabilities`).

Python dynamic values are modelled by the closed inductive `PyValue`;
`isinstance` is modelled including the subclass facts `bool <: int` and
`datetime <: date`.  Python `Decimal` values are modelled by `Rat`
(Python decimals are exact); binary floating point is abstracted by `Rat`
as well (no claim depends on float rounding).  Timestamps are integer
ticks (seconds).  External collaborators (the pyodbc driver, the
procedure-metadata fetch, the capability-detection query) are passed in as
parameters, following the external-interface boundary of the design.
-/

namespace MssqlMcp

/-- Decidable equality for `Except`, needed to evaluate the embedded
fallible operations on concrete inputs. -/
instance {ε α : Type} [DecidableEq ε] [DecidableEq α] : DecidableEq (Except ε α) :=
  fun x y =>
    match x, y with
    | .ok a, .ok b =>
        if h : a = b then .isTrue (by rw [h])
        else .isFalse (fun hc => h (Except.ok.inj hc))
    | .error a, .error b =>
        if h : a = b then .isTrue (by rw [h])
        else .isFalse (fun hc => h (Except.error.inj hc))
    | .ok _, .error _ => .isFalse (fun hc => Except.noConfusion hc)
    | .error _, .ok _ => .isFalse (fun hc => Except.noConfusion hc)

/-- Model of a Python `datetime.datetime` value (fractional seconds and
time zones are not modelled; no claim depends on them). -/
structure PyDateTime where
  year : Nat
  month : Nat
  day : Nat
  hour : Nat
  minute : Nat
  second : Nat
deriving DecidableEq

/-- Model of a Python `datetime.date` value. -/
structure PyDate where
  year : Nat
  month : Nat
  day : Nat
deriving DecidableEq

/-- Model of a Python `datetime.time` value. -/
structure PyTime where
  hour : Nat
  minute : Nat
  second : Nat
deriving DecidableEq

/-- Model of a Python `decimal.Decimal` value: an integer significand and
a base-ten exponent, denoting `num / 10 ^ exp`.  This is exactly the
representation `decimal.Decimal` itself keeps (Python preserves the
written exponent: `Decimal("12.34")` is significand 1234, exponent -2),
so structural equality here is representation equality of the Python
objects. -/
structure PyDecimal where
  num : Int
  exp : Nat
deriving DecidableEq

/-- A Python runtime value, restricted to the native categories that the
marshaling pipeline distinguishes (`type_mapper.TYPE_MAPPING`).  `vFloat`
carries an exact-decimal abstraction of a binary float (binary rounding
is not modelled; no claim depends on it); `vDecimal` carries the value of
a `decimal.Decimal`; `vUuid` carries the canonical textual form of a
`uuid.UUID`. -/
inductive PyValue
  | vNone
  | vBool (b : Bool)
  | vInt (n : Int)
  | vFloat (x : PyDecimal)
  | vDecimal (d : PyDecimal)
  | vStr (s : String)
  | vDatetime (d : PyDateTime)
  | vDate (d : PyDate)
  | vTime (t : PyTime)
  | vBytes (bs : List Nat)
  | vUuid (u : String)
deriving DecidableEq

/-- The Python classes appearing as keys of `TYPE_MAPPING`
(type_mapper.py lines 10-22). -/
inductive PyTypeTag
  | tInt
  | tFloat
  | tDecimal
  | tStr
  | tBool
  | tDatetime
  | tDate
  | tTime
  | tBytes
  | tUuid
  | tNoneType
deriving DecidableEq

/-- Python `isinstance`, on the modelled classes.  `bool` is a subclass of
`int` and `datetime` is a subclass of `date`, exactly as in CPython; both
subclass facts are observable through `TYPE_MAPPING` lookups. -/
def pyIsInstance : PyValue → PyTypeTag → Bool
  | .vInt _, .tInt => true
  | .vBool _, .tInt => true
  | .vBool _, .tBool => true
  | .vFloat _, .tFloat => true
  | .vDecimal _, .tDecimal => true
  | .vStr _, .tStr => true
  | .vDatetime _, .tDatetime => true
  | .vDatetime _, .tDate => true
  | .vDate _, .tDate => true
  | .vTime _, .tTime => true
  | .vBytes _, .tBytes => true
  | .vUuid _, .tUuid => true
  | .vNone, .tNoneType => true
  | _, _ => false

/-- `TYPE_MAPPING` from type_mapper.py lines 10-22, in the source's dict
insertion order: Python class -> compatible SQL Server type names. -/
def TYPE_MAPPING : List (PyTypeTag × List String) :=
  [ (.tInt, ["int", "bigint", "smallint", "tinyint", "bit"]),
    (.tFloat, ["float", "real"]),
    (.tDecimal, ["decimal", "numeric", "money", "smallmoney"]),
    (.tStr, ["varchar", "nvarchar", "char", "nchar", "text", "ntext"]),
    (.tBool, ["bit"]),
    (.tDatetime, ["datetime", "datetime2", "smalldatetime"]),
    (.tDate, ["date"]),
    (.tTime, ["time"]),
    (.tBytes, ["binary", "varbinary", "image"]),
    (.tUuid, ["uniqueidentifier"]),
    (.tNoneType, []) ]

/-- The compatibility loop of `validate_parameter` (type_mapper.py lines
231-236): `compatible` becomes true at the first `TYPE_MAPPING` row whose
class matches by `isinstance` AND whose type list contains the (lowercased)
declared type; a row whose class matches but whose list does not contain
the type does not stop the loop, so the loop is equivalent to `any` of the
conjunction. -/
def typeCompatible (value : PyValue) (sqlTypeLower : String) : Bool :=
  TYPE_MAPPING.any (fun row => pyIsInstance value row.1 && row.2.contains sqlTypeLower)

/-- The errors raised by the marshaling pipeline.  Each constructor
corresponds to one raise site in type_mapper.py:
`missingRequiredParameter` (line 270), `nullNotAllowed` (line 222),
`incompatibleType` (line 239), `lengthExceeded` (lines 58, 178, 186),
`conversionTypeError` (the `TypeError` raises of `convert_python_to_sql`),
`decimalInvalidOperation` (the `decimal.InvalidOperation` escaping the
`except (ValueError, TypeError)` clause of the decimal branch, lines
77-83: `InvalidOperation` is not a subclass of either caught class). -/
inductive MarshalError
  | missingRequiredParameter (name : String)
  | nullNotAllowed (name : String)
  | incompatibleType (name : String) (sqlType : String)
  | lengthExceeded (len maxLen : Int)
  | conversionTypeError (sqlType : String)
  | decimalInvalidOperation
deriving DecidableEq

/-- ASCII lowercase map for one character (SQL type names and UUID text
are ASCII; non-ASCII lowercasing is not modelled). -/
def lowerChar (c : Char) : Char :=
  let table : List (Char × Char) :=
    [('A', 'a'), ('B', 'b'), ('C', 'c'), ('D', 'd'), ('E', 'e'), ('F', 'f'),
     ('G', 'g'), ('H', 'h'), ('I', 'i'), ('J', 'j'), ('K', 'k'), ('L', 'l'),
     ('M', 'm'), ('N', 'n'), ('O', 'o'), ('P', 'p'), ('Q', 'q'), ('R', 'r'),
     ('S', 's'), ('T', 't'), ('U', 'u'), ('V', 'v'), ('W', 'w'), ('X', 'x'),
     ('Y', 'y'), ('Z', 'z')]
  match table.find? (fun pr => pr.1 = c) with
  | some pr => pr.2
  | none => c

/-- Python `str.lower()` (ASCII). -/
def lowerString (s : String) : String :=
  ⟨s.data.map lowerChar⟩

/-- Python whitespace test for `str.strip()` (the common ASCII whitespace
characters). -/
def isPySpace (c : Char) : Bool :=
  c = ' ' || c = '\t' || c = '\n' || c = '\r'

/-- Python `str.strip()`. -/
def pyStrip (s : String) : String :=
  ⟨((s.data.dropWhile isPySpace).reverse.dropWhile isPySpace).reverse⟩

/-- `validate_parameter` (type_mapper.py lines 199-242): `None` is valid
unless the parameter is neither nullable nor defaulted; a non-null value
must be compatible with the declared type per `TYPE_MAPPING`. -/
def validate_parameter (param_name : String) (value : PyValue) (sql_type : String)
    (is_nullable : Bool) (has_default : Bool) : Except MarshalError Unit :=
  if value = .vNone then
    if !is_nullable && !has_default then
      .error (.nullNotAllowed param_name)
    else
      .ok ()
  else
    if typeCompatible value (lowerString sql_type) then
      .ok ()
    else
      .error (.incompatibleType param_name sql_type)

/-- Python `str(value)` on the modelled values, to the extent the pipeline
observes it (the character-type branch and the bit branch of
`convert_python_to_sql`).  Exact repr formatting of floats, decimals,
temporals and bytes is not modelled; no claim depends on it. -/
def pyStr : PyValue → String
  | .vStr s => s
  | .vInt n => toString n
  | .vBool b => if b then "True" else "False"
  | .vNone => "None"
  | .vFloat x => toString x.num ++ "E-" ++ toString x.exp
  | .vDecimal d => toString d.num ++ "E-" ++ toString d.exp
  | .vDatetime d =>
      toString d.year ++ "-" ++ toString d.month ++ "-" ++ toString d.day ++ " " ++
      toString d.hour ++ ":" ++ toString d.minute ++ ":" ++ toString d.second
  | .vDate d => toString d.year ++ "-" ++ toString d.month ++ "-" ++ toString d.day
  | .vTime t => toString t.hour ++ ":" ++ toString t.minute ++ ":" ++ toString t.second
  | .vBytes bs => toString bs
  | .vUuid u => u

/-- Python truthiness, used by the `bit` branch (`1 if value else 0`). -/
def pyTruthy : PyValue → Bool
  | .vNone => false
  | .vBool b => b
  | .vInt n => n ≠ 0
  | .vFloat x => x.num ≠ 0
  | .vDecimal d => d.num ≠ 0
  | .vStr s => s ≠ ""
  | .vBytes bs => bs ≠ []
  | .vDatetime _ => true
  | .vDate _ => true
  | .vTime _ => true
  | .vUuid _ => true

/-- All characters are ASCII digits. -/
def allDigits (cs : List Char) : Bool :=
  cs.all Char.isDigit

/-- Numeric value of a digit string. -/
def natOfDigits (cs : List Char) : Nat :=
  cs.foldl (fun a c => a * 10 + (c.toNat - 48)) 0

/-- Unsigned part of the decimal literal grammar accepted by
`decimal.Decimal(str)`: digits, optionally followed by a point and more
digits, with at least one digit overall.  (Exponents and the special
values Infinity/NaN are not modelled; no claim depends on them.) -/
def parseDecimalBody (cs : List Char) : Option PyDecimal :=
  let intPart := cs.takeWhile (fun c => c ≠ '.')
  let rest := cs.dropWhile (fun c => c ≠ '.')
  match rest with
  | [] =>
      if intPart ≠ [] && allDigits intPart then
        some ⟨(natOfDigits intPart : Int), 0⟩
      else
        none
  | _ :: frac =>
      if allDigits intPart && allDigits frac && (intPart ≠ [] || frac ≠ []) then
        some ⟨(natOfDigits (intPart ++ frac) : Int), frac.length⟩
      else
        none

/-- `decimal.Decimal(s)` for a string: optional surrounding whitespace,
optional sign, then a decimal body; `none` models the raised
`decimal.InvalidOperation`. -/
def parseDecimalString (s : String) : Option PyDecimal :=
  match (pyStrip s).toList with
  | '+' :: rest => parseDecimalBody rest
  | '-' :: rest => (parseDecimalBody rest).map (fun q => ⟨-q.num, q.exp⟩)
  | cs => parseDecimalBody cs

/-- `int(s)` for a string: optional surrounding whitespace, optional sign,
then decimal digits only; `none` models the raised `ValueError`. -/
def parseIntString (s : String) : Option Int :=
  match (pyStrip s).toList with
  | '+' :: rest =>
      if rest ≠ [] && allDigits rest then some (natOfDigits rest : Int) else none
  | '-' :: rest =>
      if rest ≠ [] && allDigits rest then some (-(natOfDigits rest : Int)) else none
  | cs =>
      if cs ≠ [] && allDigits cs then some (natOfDigits cs : Int) else none

/-- Python `int(value)`: identity on ints, 1/0 on bools, truncation toward
zero on floats and decimals, digit parse on strings; `none` models the
`ValueError`/`TypeError` raised on everything else. -/
def pyInt : PyValue → Option Int
  | .vInt n => some n
  | .vBool b => some (if b then 1 else 0)
  | .vFloat x => some (Int.tdiv x.num ((10 : Int) ^ x.exp))
  | .vDecimal d => some (Int.tdiv d.num ((10 : Int) ^ d.exp))
  | .vStr s => parseIntString s
  | _ => none

/-- Python `float(value)` under the exact-decimal abstraction of floats:
defined on ints, bools, floats, decimals and numeric strings; `none`
models the raised `ValueError`/`TypeError`. -/
def pyFloat : PyValue → Option PyDecimal
  | .vInt n => some ⟨n, 0⟩
  | .vBool b => some (if b then ⟨1, 0⟩ else ⟨0, 0⟩)
  | .vFloat x => some x
  | .vDecimal d => some d
  | .vStr s => parseDecimalString s
  | _ => none

/-- `datetime.fromisoformat` on the modelled grammar
`YYYY-MM-DD[{T or space}HH:MM:SS]` with basic range validation.
(CPython accepts further forms; no claim depends on them.) -/
def fromisoformat (s : String) : Option PyDateTime :=
  let cs := s.toList
  match cs with
  | [y1, y2, y3, y4, '-', m1, m2, '-', d1, d2] =>
      if allDigits [y1, y2, y3, y4, m1, m2, d1, d2] then
        let mo := natOfDigits [m1, m2]
        let da := natOfDigits [d1, d2]
        if 1 ≤ mo && mo ≤ 12 && 1 ≤ da && da ≤ 31 then
          some ⟨natOfDigits [y1, y2, y3, y4], mo, da, 0, 0, 0⟩
        else none
      else none
  | [y1, y2, y3, y4, '-', m1, m2, '-', d1, d2, sep, h1, h2, ':', mi1, mi2, ':', s1, s2] =>
      if (sep = 'T' || sep = ' ') &&
          allDigits [y1, y2, y3, y4, m1, m2, d1, d2, h1, h2, mi1, mi2, s1, s2] then
        let mo := natOfDigits [m1, m2]
        let da := natOfDigits [d1, d2]
        let h := natOfDigits [h1, h2]
        let mi := natOfDigits [mi1, mi2]
        let se := natOfDigits [s1, s2]
        if 1 ≤ mo && mo ≤ 12 && 1 ≤ da && da ≤ 31 && h ≤ 23 && mi ≤ 59 && se ≤ 59 then
          some ⟨natOfDigits [y1, y2, y3, y4], mo, da, h, mi, se⟩
        else none
      else none
  | _ => none

/-- `datetime.date()` projection. -/
def dateOfDatetime (d : PyDateTime) : PyDate :=
  ⟨d.year, d.month, d.day⟩

/-- `datetime.time()` projection. -/
def timeOfDatetime (d : PyDateTime) : PyTime :=
  ⟨d.hour, d.minute, d.second⟩

/-- Hex digit test for the UUID form check. -/
def isHexDigit (c : Char) : Bool :=
  c.isDigit || ('a' ≤ c && c ≤ 'f') || ('A' ≤ c && c ≤ 'F')

/-- `uuid.UUID(s)` validation restricted to the canonical dashed form
8-4-4-4-12; the canonical output of `str(uuid.UUID(s))` is the lowercased
input.  (CPython also accepts braced/urn/undashed forms; no claim depends
on them.) -/
def uuidGroupsCheck : List Char → List Nat → Bool
  | cs, [] => cs.isEmpty
  | cs, g :: gsRest =>
      let head := cs.take g
      let tail := cs.drop g
      if head.length == g && head.all isHexDigit then
        match gsRest with
        | [] => tail.isEmpty
        | _ =>
            match tail with
            | '-' :: tailRest => uuidGroupsCheck tailRest gsRest
            | _ => false
      else false

def parseUuid (s : String) : Option String :=
  if uuidGroupsCheck s.toList [8, 4, 4, 4, 12] then some (lowerString s) else none

/-- UTF-8 encoding of a string, as a byte list (`bytes(value, "utf-8")`). -/
def utf8Bytes (s : String) : List Nat :=
  s.toUTF8.toList.map (fun b => b.toNat)

/-- `convert_python_to_sql` (type_mapper.py lines 25-196): the
type-directed conversion producing the final driver value.  `precision`
and `scale` are accepted but never used by the source body.  Branches in
source order; the final catch-all passes the value through unchanged. -/
def convert_python_to_sql (value : PyValue) (sql_type : String)
    (max_length : Int) (precision : Int) (scale : Int) : Except MarshalError PyValue :=
  if value = .vNone then
    .ok .vNone
  else
    let t := lowerString sql_type
    if ["varchar", "nvarchar", "char", "nchar", "text", "ntext"].contains t then
      let s := pyStr value
      if max_length > 0 && (s.length : Int) > max_length then
        .error (.lengthExceeded (s.length : Int) max_length)
      else
        .ok (.vStr s)
    else if ["int", "bigint", "smallint", "tinyint"].contains t then
      -- source: ints and bools short-circuit; otherwise try int(value)
      match pyInt value with
      | some n => .ok (.vInt n)
      | none => .error (.conversionTypeError sql_type)
    else if ["decimal", "numeric", "money", "smallmoney"].contains t then
      -- source: isinstance(value, (int, float, str)) -> Decimal(str(value));
      -- note bool passes that isinstance (bool <: int) and then
      -- Decimal("True") raises InvalidOperation, uncaught by the
      -- except (ValueError, TypeError) clause.
      match value with
      | .vInt n => .ok (.vDecimal ⟨n, 0⟩)
      | .vBool _ => .error .decimalInvalidOperation
      | .vFloat x => .ok (.vDecimal x)
      | .vStr s =>
          match parseDecimalString s with
          | some d => .ok (.vDecimal d)
          | none => .error .decimalInvalidOperation
      | .vDecimal d => .ok (.vDecimal d)
      | _ => .error (.conversionTypeError sql_type)
    else if ["float", "real"].contains t then
      match pyFloat value with
      | some x => .ok (.vFloat x)
      | none => .error (.conversionTypeError sql_type)
    else if ["datetime", "datetime2", "smalldatetime"].contains t then
      match value with
      | .vStr s =>
          match fromisoformat s with
          | some d => .ok (.vDatetime d)
          | none => .error (.conversionTypeError sql_type)
      | .vDatetime d => .ok (.vDatetime d)
      | _ => .error (.conversionTypeError sql_type)
    else if t = "date" then
      match value with
      | .vStr s =>
          match fromisoformat s with
          | some d => .ok (.vDate (dateOfDatetime d))
          | none => .error (.conversionTypeError "date")
      | .vDatetime d => .ok (.vDate (dateOfDatetime d))
      | .vDate d => .ok (.vDate d)
      | _ => .error (.conversionTypeError "date")
    else if t = "time" then
      -- source parses "2000-01-01T" ++ value via fromisoformat, then .time()
      match value with
      | .vStr s =>
          match fromisoformat ("2000-01-01T" ++ s) with
          | some d => .ok (.vTime (timeOfDatetime d))
          | none => .error (.conversionTypeError "time")
      | .vDatetime d => .ok (.vTime (timeOfDatetime d))
      | .vTime tm => .ok (.vTime tm)
      | _ => .error (.conversionTypeError "time")
    else if t = "bit" then
      .ok (.vInt (if pyTruthy value then 1 else 0))
    else if t = "uniqueidentifier" then
      match value with
      | .vStr s =>
          match parseUuid s with
          | some canonical => .ok (.vStr canonical)
          | none => .error (.conversionTypeError "uniqueidentifier")
      | .vUuid u => .ok (.vStr u)
      | _ => .error (.conversionTypeError "uniqueidentifier")
    else if ["binary", "varbinary", "image"].contains t then
      match value with
      | .vBytes bs =>
          if max_length > 0 && (bs.length : Int) > max_length then
            .error (.lengthExceeded (bs.length : Int) max_length)
          else
            .ok (.vBytes bs)
      | .vStr s =>
          let encoded := utf8Bytes s
          if max_length > 0 && (encoded.length : Int) > max_length then
            .error (.lengthExceeded (encoded.length : Int) max_length)
          else
            .ok (.vBytes encoded)
      | _ => .error (.conversionTypeError sql_type)
    else
      .ok value

/-- `StoredProcedureParameter` (models.py lines 134-151): metadata for one
stored-procedure parameter, as fetched from `sys.parameters`. -/
structure StoredProcedureParameter where
  parameter_name : String
  parameter_id : Int
  data_type : String
  max_length : Int
  precision : Int
  scale : Int
  is_output : Bool
  has_default_value : Bool
  default_value : Option String
  is_nullable : Bool
deriving DecidableEq

/-- `StoredProcedureParameter.is_required` (models.py lines 149-151):
required iff no default and not output-only. -/
def StoredProcedureParameter.is_required (p : StoredProcedureParameter) : Bool :=
  !p.has_default_value && !p.is_output

/-- `convert_parameters_for_execution` (type_mapper.py lines 245-298):
iterates over EVERY descriptor of `param_metadata` in list order; a
missing required parameter fails, a missing optional one appends the null
placeholder, a supplied one is validated then converted and appended.
Note: the source loop does not skip ordinal-0 or output-only descriptors. -/
def convert_parameters_for_execution (parameters : List (String × PyValue))
    (param_metadata : List StoredProcedureParameter) :
    Except MarshalError (List PyValue) :=
  match param_metadata with
  | [] => .ok []
  | meta :: rest =>
      match (parameters.find? (fun kv => kv.1 == meta.parameter_name)) with
      | none =>
          if meta.is_required then
            .error (.missingRequiredParameter meta.parameter_name)
          else
            (convert_parameters_for_execution parameters rest).map
              (fun tail => .vNone :: tail)
      | some kv =>
          match validate_parameter meta.parameter_name kv.2 meta.data_type
              meta.is_nullable meta.has_default_value with
          | .error e => .error e
          | .ok _ =>
              match convert_python_to_sql kv.2 meta.data_type meta.max_length
                  meta.precision meta.scale with
              | .error e => .error e
              | .ok v =>
                  (convert_parameters_for_execution parameters rest).map
                    (fun tail => v :: tail)

/-- The input-parameter filter of `DatabaseService.execute_stored_procedure`
(database_service.py line 424) and `_execute_sp_in_background` (line 1065):
placeholders are built only for descriptors with `parameter_id > 0` that
are not output parameters. -/
def inputParameters (param_metadata : List StoredProcedureParameter) :
    List StoredProcedureParameter :=
  param_metadata.filter (fun p => decide (0 < p.parameter_id) && !p.is_output)

/-! ## Session registry (`SessionManager`, database_service.py lines 774-1126)

Timestamps are integer ticks (seconds).  The session dict is modelled as
an association list in insertion order (Python dicts preserve insertion
order; keys are unique).  Every registry operation of the source runs its
map accesses inside `with self._lock`, so each operation is one atomic
transition here.  A worker's terminal write (the body of
`_execute_query_in_background` / `_execute_sp_in_background` together
with its `finally` clause) is likewise modelled as one atomic transition;
each session's worker performs exactly one such write, which the step
function enforces through the ghost `finished` list. -/

/-- `SessionStatus` (models.py lines 93-98). -/
inductive SessionStatus
  | running
  | completed
  | failed
  | cancelled
deriving DecidableEq

/-- `SessionType` (models.py lines 101-104). -/
inductive SessionType
  | query
  | storedProcedure
deriving DecidableEq

/-- `QuerySession` (models.py lines 107-131). -/
structure QuerySession where
  session_id : String
  query : String
  session_type : SessionType
  status : SessionStatus
  start_time : Int
  database_name : Option String
  parameters : Option (List (String × PyValue))
  end_time : Option Int
  row_count : Nat
  results : Option String
  error : Option String
  timeout_seconds : Nat
deriving DecidableEq

/-- `QuerySession.is_running` (models.py lines 124-126). -/
def QuerySession.is_running (s : QuerySession) : Bool :=
  s.status = .running

/-- The fixed cancellation message set by `cancel_session`
(database_service.py line 939). -/
def CANCEL_MESSAGE : String := "Cancelled by user"

/-- State of a `SessionManager`: the session dict, the maximum
concurrent-session limit (`_max_sessions`, equal to the worker-pool
size), and the ghost list of session identifiers whose worker has already
performed its terminal write. -/
structure RegState where
  sessions : List (String × QuerySession)
  maxSessions : Nat
  finished : List String
deriving DecidableEq

/-- `self._sessions.get(session_id)` (first association with the key;
keys are unique in every reachable state). -/
def lookupSession (st : RegState) (id : String) : Option QuerySession :=
  (st.sessions.find? (fun p => p.1 == id)).map (fun p => p.2)

/-- In-place replacement of the session stored under `id` (Python workers
and `cancel_session` mutate the very object held in the dict). -/
def updateSession (st : RegState) (id : String) (sess : QuerySession) : RegState :=
  { st with sessions := st.sessions.map (fun p => if p.1 == id then (id, sess) else p) }

/-- `sum(1 for s in self._sessions.values() if s.is_running())`
(database_service.py lines 814-816 and 992-994). -/
def runningCount (st : RegState) : Nat :=
  (st.sessions.filter (fun p => p.2.is_running)).length

/-- The `RuntimeError` message raised at the concurrency limit
(database_service.py lines 818-820 and 996-998). -/
def capacityMessage (n : Nat) : String :=
  "Maximum concurrent sessions (" ++ toString n ++ ") reached"

/-- The session record created by `start_query` (database_service.py
lines 823-832). -/
def mkQuerySession (id query : String) (db : Option String) (timeout : Nat)
    (now : Int) : QuerySession :=
  ⟨id, query, .query, .running, now, db, none, none, 0, none, none, timeout⟩

/-- The session record created by `start_stored_procedure`
(database_service.py lines 1000-1011); the procedure name is stored in the
`query` field. -/
def mkProcSession (id name : String) (params : List (String × PyValue))
    (db : Option String) (timeout : Nat) (now : Int) : QuerySession :=
  ⟨id, name, .storedProcedure, .running, now, db, some params, none, 0, none, none, timeout⟩

/-- `SessionManager.start_query` (database_service.py lines 792-838):
under the lock, fail with the capacity `RuntimeError` when the RUNNING
count has reached `_max_sessions`, otherwise insert a fresh RUNNING
session and return its identifier.  The freshly drawn `uuid.uuid4()`
value is the `newId` argument (collision-freeness of uuid4 is an
environmental assumption, stated as a hypothesis where needed).  On
failure the registry is returned unchanged. -/
def start_query (st : RegState) (query : String) (db : Option String)
    (timeout : Nat) (newId : String) (now : Int) :
    RegState × Except String String :=
  if st.maxSessions ≤ runningCount st then
    (st, .error (capacityMessage st.maxSessions))
  else
    ({ st with sessions := st.sessions ++ [(newId, mkQuerySession newId query db timeout now)] },
     .ok newId)

/-- `SessionManager.start_stored_procedure` (database_service.py lines
968-1017): same capacity discipline as `start_query`. -/
def start_stored_procedure (st : RegState) (name : String)
    (params : List (String × PyValue)) (db : Option String)
    (timeout : Nat) (newId : String) (now : Int) :
    RegState × Except String String :=
  if st.maxSessions ≤ runningCount st then
    (st, .error (capacityMessage st.maxSessions))
  else
    ({ st with sessions := st.sessions ++ [(newId, mkProcSession newId name params db timeout now)] },
     .ok newId)

/-- The field updates of a worker's success write (database_service.py
lines 865-884 resp. 1112-1114, with the `finally` end-timestamp of line
893 resp. 1126): row count, results, COMPLETED status and end timestamp;
`error` is left untouched. -/
def completedWrite (sess : QuerySession) (res : String) (rc : Nat)
    (now : Int) : QuerySession :=
  { sess with row_count := rc, results := some res,
              status := .completed, end_time := some now }

/-- The field updates of a worker's failure write (database_service.py
lines 889-893 resp. 1122-1126): FAILED status, the exception text and the
end timestamp; `results` is left untouched. -/
def failedWrite (sess : QuerySession) (msg : String) (now : Int) : QuerySession :=
  { sess with status := .failed, error := some msg, end_time := some now }

/-- The field updates of `cancel_session` (database_service.py lines
937-939): CANCELLED status, end timestamp, fixed cancellation message. -/
def cancelledWrite (sess : QuerySession) (now : Int) : QuerySession :=
  { sess with status := .cancelled, end_time := some now,
              error := some CANCEL_MESSAGE }

/-- The success terminal write of a worker: performed unconditionally by
the source, without re-checking the current status.  The ghost guard
records that each worker writes at most once. -/
def workerFinishSuccess (st : RegState) (id : String) (res : String)
    (rc : Nat) (now : Int) : RegState :=
  if st.finished.contains id then st
  else
    let st1 :=
      match lookupSession st id with
      | some sess => updateSession st id (completedWrite sess res rc now)
      | none => st
    { st1 with finished := st1.finished ++ [id] }

/-- The failure terminal write of a worker; also unconditional. -/
def workerFinishFailure (st : RegState) (id : String) (msg : String)
    (now : Int) : RegState :=
  if st.finished.contains id then st
  else
    let st1 :=
      match lookupSession st id with
      | some sess => updateSession st id (failedWrite sess msg now)
      | none => st
    { st1 with finished := st1.finished ++ [id] }

/-- `SessionManager.cancel_session` (database_service.py lines 918-941):
under the lock, a missing or non-RUNNING session is a no-op reported
false; a RUNNING session is marked CANCELLED with an end timestamp and
the fixed cancellation message, reported true. -/
def cancel_session (st : RegState) (id : String) (now : Int) : RegState × Bool :=
  match lookupSession st id with
  | none => (st, false)
  | some sess =>
      if sess.is_running then
        (updateSession st id (cancelledWrite sess now), true)
      else
        (st, false)

/-- `_cleanup_interval_minutes = 15` (database_service.py line 790), in
seconds. -/
def CLEANUP_INTERVAL_TICKS : Int := 15 * 60

/-- The removal predicate of `cleanup_completed_sessions`
(database_service.py lines 955-961): end timestamp present and older than
`now - cutoff`, and the session is not RUNNING. -/
def sessionExpired (s : QuerySession) (now : Int) : Bool :=
  match s.end_time with
  | some t => decide (t < now - CLEANUP_INTERVAL_TICKS) && !s.is_running
  | none => false

/-- `SessionManager.cleanup_completed_sessions` (database_service.py
lines 943-966): under the lock, delete every session matching the removal
predicate and return how many were removed. -/
def cleanup_completed_sessions (st : RegState) (now : Int) : RegState × Nat :=
  let removed := st.sessions.filter (fun p => sessionExpired p.2 now)
  ({ st with sessions := st.sessions.filter (fun p => !sessionExpired p.2 now) },
   removed.length)

/-- The observable registry transitions: submissions, the two worker
terminal writes, cancellation and the cleanup sweep. -/
inductive RegEvent
  | submitQuery (id query : String) (db : Option String) (timeout : Nat) (now : Int)
  | submitProc (id name : String) (params : List (String × PyValue))
      (db : Option String) (timeout : Nat) (now : Int)
  | workerSuccess (id res : String) (rc : Nat) (now : Int)
  | workerFailure (id msg : String) (now : Int)
  | cancel (id : String) (now : Int)
  | sweep (now : Int)
deriving DecidableEq

/-- Whether an event is the terminal write of the worker owning `id`. -/
def isWorkerWriteOn (id : String) : RegEvent → Bool
  | .workerSuccess i _ _ _ => i == id
  | .workerFailure i _ _ => i == id
  | _ => false

/-- One registry transition.  Submission events whose drawn identifier is
not globally fresh (already a key, or already used by a finished worker)
are excluded, modelling uuid4 collision-freeness; a submission hitting
the capacity limit raises and leaves the state unchanged. -/
def regStep (st : RegState) : RegEvent → RegState
  | .submitQuery id q db t now =>
      if st.finished.contains id || (lookupSession st id).isSome then st
      else (start_query st q db t id now).1
  | .submitProc id nm ps db t now =>
      if st.finished.contains id || (lookupSession st id).isSome then st
      else (start_stored_procedure st nm ps db t id now).1
  | .workerSuccess id res rc now => workerFinishSuccess st id res rc now
  | .workerFailure id msg now => workerFinishFailure st id msg now
  | .cancel id now => (cancel_session st id now).1
  | .sweep now => (cleanup_completed_sessions st now).1

/-- A freshly constructed `SessionManager` (database_service.py lines
777-790): empty session dict. -/
def initRegState (maxSessions : Nat) : RegState :=
  ⟨[], maxSessions, []⟩

/-- The registry state after a sequence of transitions from a fresh
manager. -/
def regRun (maxSessions : Nat) (es : List RegEvent) : RegState :=
  es.foldl regStep (initRegState maxSessions)

/-! ## Effect traces for the stored-procedure and query call paths

`DatabaseService.execute_stored_procedure` (database_service.py lines
376-459), `SessionManager.start_stored_procedure` +
`_execute_sp_in_background` (lines 968-1126) and
`DatabaseService.execute_query` (lines 198-235) are modelled as functions
that also emit the ordered list of observable resource effects, so that
ordering claims (what happens before a marshaling failure is surfaced)
can be stated.  The metadata returned by `get_sp_parameters` and the
result text produced by the driver are parameters (external
collaborators); `get_sp_parameters` itself opens and closes a pyodbc
connection (lines 481, 538). -/

/-- Observable resource effects of one stored-procedure or query call. -/
inductive DbEffect
  | workerSlotConsumed (sessionId : String)
  | metadataConnectionOpened
  | executionConnectionOpened
  | marshalingFailed (e : MarshalError)
  | procedureExecuted (placeholders : Nat) (values : Nat)
  | queryExecuted
  | connectionClosed
deriving DecidableEq

/-- Error surfaced by the synchronous stored-procedure path. -/
inductive SpCallError
  | emptyProcedureName
  | marshal (e : MarshalError)
deriving DecidableEq

/-- The exception text `str(e)` recorded by a worker for a marshaling
failure (the Python messages are reproduced up to quoting). -/
def marshalErrorMessage : MarshalError → String
  | .missingRequiredParameter name => "Required parameter " ++ name ++ " not provided"
  | .nullNotAllowed name => "Parameter " ++ name ++ " cannot be NULL (not nullable and no default)"
  | .incompatibleType name sqlType =>
      "Parameter " ++ name ++ ": Type is not compatible with SQL type " ++ sqlType
  | .lengthExceeded len maxLen =>
      "Length " ++ toString len ++ " exceeds maximum " ++ toString maxLen
  | .conversionTypeError sqlType => "Cannot convert to " ++ sqlType
  | .decimalInvalidOperation => "InvalidOperation"

/-- `DatabaseService.execute_stored_procedure` (database_service.py lines
376-459): empty-name check; metadata fetch (which opens and closes its
own connection); marshaling; only then the execution connection is opened
and the EXEC statement runs, with placeholders built from
`inputParameters` but every converted value passed positionally. -/
def executeStoredProcedureRun (procedure_name : String)
    (parameters : List (String × PyValue))
    (param_metadata : List StoredProcedureParameter) :
    List DbEffect × Except SpCallError Unit :=
  if pyStrip procedure_name = "" then
    ([], .error .emptyProcedureName)
  else
    let effMeta := [DbEffect.metadataConnectionOpened, DbEffect.connectionClosed]
    match convert_parameters_for_execution parameters param_metadata with
    | .error e => (effMeta, .error (.marshal e))
    | .ok vals =>
        (effMeta ++
          [DbEffect.executionConnectionOpened,
           DbEffect.procedureExecuted (inputParameters param_metadata).length vals.length,
           DbEffect.connectionClosed],
         .ok ())

/-- `SessionManager.start_stored_procedure` followed by the scheduled
`_execute_sp_in_background` worker (database_service.py lines 968-1126):
the submission consumes a worker slot and returns the session id at once;
the worker then fetches metadata (opening a connection), marshals, and
only on marshaling success opens the execution connection; a marshaling
failure is recorded as the session's FAILED terminal error.  `execResult`
and `execRows` stand for the driver's formatted result on the success
path. -/
def backgroundStoredProcedureRun (st : RegState) (procedure_name : String)
    (parameters : List (String × PyValue)) (db : Option String)
    (timeout : Nat) (newId : String) (now : Int)
    (param_metadata : List StoredProcedureParameter)
    (execResult : String) (execRows : Nat) :
    RegState × Except String String × List DbEffect :=
  match start_stored_procedure st procedure_name parameters db timeout newId now with
  | (st1, .error m) => (st1, .error m, [])
  | (st1, .ok sid) =>
      let eff0 := [DbEffect.workerSlotConsumed sid,
                   DbEffect.metadataConnectionOpened, DbEffect.connectionClosed]
      match convert_parameters_for_execution parameters param_metadata with
      | .error e =>
          (workerFinishFailure st1 sid (marshalErrorMessage e) now,
           .ok sid,
           eff0 ++ [DbEffect.marshalingFailed e])
      | .ok vals =>
          (workerFinishSuccess st1 sid execResult execRows now,
           .ok sid,
           eff0 ++
             [DbEffect.executionConnectionOpened,
              DbEffect.procedureExecuted (inputParameters param_metadata).length vals.length,
              DbEffect.connectionClosed])

/-- `DatabaseService.execute_query` (database_service.py lines 198-235):
`if not query or not query.strip()` raises before any connection is
obtained; otherwise a connection is opened and the query executed. -/
def executeQueryRun (query : String) :
    List DbEffect × Except String Unit :=
  if query = "" || pyStrip query = "" then
    ([], .error "Query cannot be empty")
  else
    ([DbEffect.executionConnectionOpened, DbEffect.queryExecuted,
      DbEffect.connectionClosed],
     .ok ())

/-! ## Capability cache (`CapabilityDetector`, database_service.py lines
1129-1180) -/

/-- `ServerCapability` (models.py lines 167-188). -/
structure ServerCapability where
  version : String
  major_version : Int
  minor_version : Int
  build_number : Int
  edition : String
  is_azure_sql_db : Bool
  is_azure_vm : Bool
  is_on_premises : Bool
  supports_json : Bool
  supports_columnstore : Bool
  supports_temporal_tables : Bool
  supports_row_level_security : Bool
  supports_in_memory_oltp : Bool
  supports_graph_database : Bool
  supports_always_encrypted : Bool
  supports_query_store : Bool
  supports_resumable_index_ops : Bool
  supports_data_compression : Bool
deriving DecidableEq

/-- `CACHE_TTL_MINUTES = 60` (database_service.py line 1133), in
seconds; the source compares `(now - timestamp).total_seconds() / 60 <
CACHE_TTL_MINUTES`, which over the reals is `now - timestamp < 3600`. -/
def CACHE_TTL_TICKS : Int := 3600

/-- State of a `CapabilityDetector`: the connection string of its
database service and the cache dict keyed by connection string optionally
suffixed with the database name. -/
structure CapState where
  connection_string : String
  cache : List (String × ServerCapability × Int)
deriving DecidableEq

/-- The cache key (database_service.py lines 1160-1163). -/
def capCacheKey (connectionString : String) (db : Option String) : String :=
  match db with
  | some d => connectionString ++ "|" ++ d
  | none => connectionString

/-- Dict lookup in the capability cache. -/
def capLookup (cache : List (String × ServerCapability × Int)) (key : String) :
    Option (ServerCapability × Int) :=
  (cache.find? (fun p => p.1 == key)).map (fun p => p.2)

/-- Dict assignment `self._cache[cache_key] = (capability, now)`: replaces
the entry for the key wholesale, or appends a new one. -/
def capInsert (cache : List (String × ServerCapability × Int)) (key : String)
    (cap : ServerCapability) (ts : Int) : List (String × ServerCapability × Int) :=
  if (cache.find? (fun p => p.1 == key)).isSome then
    cache.map (fun p => if p.1 == key then (key, cap, ts) else p)
  else
    cache ++ [(key, cap, ts)]

/-- `CapabilityDetector.get_capabilities` (database_service.py lines
1147-1180): return the cached record unchanged if its age is below the
TTL; otherwise perform one live detection (`_detect_capabilities`, an
external query whose result is the `freshDetection` argument), store it
with the current timestamp, and return it.  The returned `Bool` records
whether a detection was performed. -/
def get_capabilities (st : CapState) (db : Option String) (now : Int)
    (freshDetection : ServerCapability) :
    ServerCapability × CapState × Bool :=
  let key := capCacheKey st.connection_string db
  match capLookup st.cache key with
  | some capts =>
      if now - capts.2 < CACHE_TTL_TICKS then
        (capts.1, st, false)
      else
        (freshDetection,
         { st with cache := capInsert st.cache key freshDetection now }, true)
  | none =>
      (freshDetection,
       { st with cache := capInsert st.cache key freshDetection now }, true)

/-- Per-session invariant of reachable registry states, relative to the
ghost list of identifiers whose worker has already performed its terminal
write: a RUNNING session has no end timestamp, no results, no error and a
pending worker; a COMPLETED session has results and either no error or
the stale cancellation message left by a cancel that raced the worker; a
FAILED session has exactly an error; a CANCELLED session has exactly the
fixed cancellation message and a still-pending worker. -/
def entryInv (finished : List String) (p : String × QuerySession) : Prop :=
  (p.2.status = .running →
     p.2.end_time = none ∧ p.2.results = none ∧ p.2.error = none ∧
     p.1 ∉ finished) ∧
  (p.2.status = .completed →
     p.2.end_time ≠ none ∧ p.2.results ≠ none ∧
     (p.2.error = none ∨ p.2.error = some CANCEL_MESSAGE) ∧ p.1 ∈ finished) ∧
  (p.2.status = .failed →
     p.2.end_time ≠ none ∧ p.2.error ≠ none ∧ p.2.results = none ∧
     p.1 ∈ finished) ∧
  (p.2.status = .cancelled →
     p.2.end_time ≠ none ∧ p.2.error = some CANCEL_MESSAGE ∧
     p.2.results = none ∧ p.1 ∉ finished)

/-- Global registry invariant: session keys are duplicate-free and every
entry satisfies `entryInv`. -/
def regInv (st : RegState) : Prop :=
  (st.sessions.map Prod.fst).Nodup ∧ ∀ p ∈ st.sessions, entryInv st.finished p

/-- The session produced by the trace submit "a"; worker success at tick
1 (used to instantiate the stability theorem on a concrete state). -/
def c3CompletedSession : QuerySession :=
  ⟨"a", "q", .query, .completed, 0, none, none, some 1, 1, some "r", none, 30⟩

/-- The session produced by the trace submit "a"; worker failure "boom"
at tick 1 (used to instantiate the field invariant on a concrete state). -/
def c4FailedSession : QuerySession :=
  ⟨"a", "q", .query, .failed, 0, none, none, some 1, 0, none, some "boom", 30⟩

/-- A sample capability record (used to instantiate cache theorems on
concrete inputs). -/
def sampleCapabilityA : ServerCapability :=
  ⟨"Microsoft SQL Server 2019", 15, 0, 0, "Standard Edition",
   false, false, true,
   true, true, true, true, true, true, true, true, true, true⟩

/-- A second, distinct sample capability record. -/
def sampleCapabilityB : ServerCapability :=
  ⟨"Microsoft SQL Server 2022", 16, 0, 0, "Enterprise Edition",
   false, false, true,
   true, true, true, true, true, true, true, true, true, true⟩

/-! ## Association-list helper lemmas -/

/-- `List.contains` on strings agrees with membership. -/
theorem contains_true_iff (l : List String) (x : String) :
    l.contains x = true ↔ x ∈ l := by
  induction l with
  | nil => simp [List.contains_cons]
  | cons b bs ih => simp [List.contains_cons, ih, beq_iff_eq]

/-- Negative form of `contains_true_iff`. -/
theorem contains_false_iff (l : List String) (x : String) :
    l.contains x = false ↔ x ∉ l := by
  rw [← Bool.not_eq_true, not_iff_not]
  exact contains_true_iff l x

/-- A failed key lookup means no entry carries the key. -/
theorem find?_key_none {β : Type} {l : List (String × β)} {id : String}
    (h : l.find? (fun p => p.1 == id) = none) : ∀ p ∈ l, p.1 ≠ id := by
  intro p hp hpe
  have hnp := List.find?_eq_none.mp h p hp
  apply hnp
  simp [hpe]

/-- A successful key lookup returns an entry with that key. -/
theorem find?_key_some {β : Type} {l : List (String × β)} {id : String}
    {q : String × β} (h : l.find? (fun p => p.1 == id) = some q) :
    q ∈ l ∧ q.1 = id := by
  have hp := List.find?_some h
  exact ⟨List.mem_of_find?_eq_some h, eq_of_beq hp⟩

/-- With duplicate-free keys, an entry is determined by its key. -/
theorem nodup_keys_unique {β : Type} {l : List (String × β)}
    (h : (l.map Prod.fst).Nodup) {id : String} {a b : β}
    (ha : (id, a) ∈ l) (hb : (id, b) ∈ l) : a = b := by
  induction l with
  | nil => cases ha
  | cons p ps ih =>
      rw [List.map_cons, List.nodup_cons] at h
      rcases List.mem_cons.mp ha with h1 | h1
      · rcases List.mem_cons.mp hb with h2 | h2
        · rw [← h1] at h2
          exact (Prod.mk.injEq _ _ _ _ ▸ h2.symm).2
        · exfalso
          apply h.1
          exact List.mem_map.mpr ⟨(id, b), h2, by rw [← h1]⟩
      · rcases List.mem_cons.mp hb with h2 | h2
        · exfalso
          apply h.1
          exact List.mem_map.mpr ⟨(id, a), h1, by rw [← h2]⟩
        · exact ih h.2 h1 h2

/-- Key-preserving update: replacing the entry under one key leaves the
key sequence unchanged. -/
theorem keys_map_update {β : Type} (l : List (String × β)) (id : String) (s : β) :
    (l.map (fun p => if p.1 == id then (id, s) else p)).map Prod.fst =
      l.map Prod.fst := by
  induction l with
  | nil => rfl
  | cons p ps ih =>
      simp only [List.map_cons, ih]
      cases hpe : p.1 == id with
      | true => simp [hpe, eq_of_beq hpe]
      | false => simp [hpe]

/-- Updating the entry under a present key makes lookup of that key
return the new entry. -/
theorem find?_key_map_update {β : Type} (l : List (String × β)) (id : String) (s : β)
    (h : (l.find? (fun p => p.1 == id)).isSome) :
    (l.map (fun p => if p.1 == id then (id, s) else p)).find?
        (fun p => p.1 == id) = some (id, s) := by
  induction l with
  | nil => simp [List.find?] at h
  | cons p ps ih =>
      cases hpe : p.1 == id with
      | true => simp [List.find?, hpe]
      | false =>
          simp only [List.find?_cons, hpe, cond_false] at h
          simp only [List.map_cons]
          have hhd : (if p.1 == id then (id, s) else p) = p := by simp [hpe]
          rw [hhd, List.find?_cons, hpe]
          exact ih h

/-- Updating the entry under one key does not change other entries. -/
theorem mem_map_update {β : Type} {l : List (String × β)} {id : String} {s : β}
    {q : String × β}
    (hq : q ∈ l.map (fun p => if p.1 == id then (id, s) else p)) :
    q = (id, s) ∨ (q ∈ l ∧ q.1 ≠ id) := by
  rcases List.mem_map.mp hq with ⟨p, hp, hpq⟩
  cases hpe : p.1 == id with
  | true =>
      left
      rw [← hpq]
      simp [hpe]
  | false =>
      right
      rw [← hpq]
      have hhd : (if p.1 == id then (id, s) else p) = p := by simp [hpe]
      rw [hhd]
      refine ⟨hp, ?_⟩
      intro hpe2
      rw [hpe2] at hpe
      simp at hpe

/-- `lookupSession` returning `none` means the key is absent. -/
theorem lookupSession_none_keys {st : RegState} {id : String}
    (h : lookupSession st id = none) : ∀ p ∈ st.sessions, p.1 ≠ id := by
  unfold lookupSession at h
  cases hf : st.sessions.find? (fun q => q.1 == id) with
  | none => exact find?_key_none hf
  | some q => rw [hf] at h; simp at h

/-- `lookupSession` returning a session means the pair is an entry. -/
theorem lookupSession_mem {st : RegState} {id : String} {s : QuerySession}
    (h : lookupSession st id = some s) : (id, s) ∈ st.sessions := by
  unfold lookupSession at h
  cases hf : st.sessions.find? (fun q => q.1 == id) with
  | none => rw [hf] at h; simp at h
  | some q =>
      rw [hf] at h
      obtain ⟨hqmem, hqkey⟩ := find?_key_some hf
      obtain ⟨q1, q2⟩ := q
      have h2 : q2 = s := by simpa using h
      have h1 : q1 = id := hqkey
      rw [← h1, ← h2]
      exact hqmem

/-- Appending an entry under a fresh key makes lookup return it. -/
theorem lookupSession_append_fresh (st : RegState) (id : String) (s : QuerySession)
    (h : lookupSession st id = none) :
    lookupSession { st with sessions := st.sessions ++ [(id, s)] } id = some s := by
  unfold lookupSession at h
  show Option.map (fun p => p.2)
      ((st.sessions ++ [(id, s)]).find? (fun p => p.1 == id)) = some s
  rw [List.find?_append]
  cases hf : st.sessions.find? (fun q => q.1 == id) with
  | some q => rw [hf] at h; simp at h
  | none => simp [List.find?]

/-- Updating a present session makes lookup return the new session. -/
theorem lookupSession_update_self {st : RegState} {id : String} {s₀ : QuerySession}
    (s : QuerySession) (h : lookupSession st id = some s₀) :
    lookupSession (updateSession st id s) id = some s := by
  have hsome : (st.sessions.find? (fun p => p.1 == id)).isSome := by
    unfold lookupSession at h
    cases hf : st.sessions.find? (fun p => p.1 == id) with
    | none => rw [hf] at h; simp at h
    | some q => simp [hf]
  show Option.map (fun p => p.2)
      ((st.sessions.map (fun p => if p.1 == id then (id, s) else p)).find?
        (fun p => p.1 == id)) = some s
  rw [find?_key_map_update st.sessions id s hsome]
  rfl

/-- Changing only the ghost `finished` list does not affect session
lookup. -/
theorem lookupSession_set_finished (st : RegState) (f : List String) (id : String) :
    lookupSession { st with finished := f } id = lookupSession st id := rfl

/-! ## Claim theorems -/

/-- C1: the claim states that the marshaling pipeline skips ordinal-0 and
output-only descriptors so that its output length equals the number of
non-output descriptors with ordinal > 0.  The source loop appends one
value for EVERY descriptor: on the failing input (one required input
descriptor and one output-only descriptor, the input parameter supplied)
the pipeline emits two values — the output-only descriptor contributes a
null placeholder — while the placeholder filter of
`execute_stored_procedure` counts only one input parameter, so the EXEC
statement is built with one marker but called with two values. -/
theorem convert_emits_value_per_descriptor_including_output :
    convert_parameters_for_execution [("p1", PyValue.vInt 5)]
        [⟨"p1", 1, "int", 4, 10, 0, false, false, none, false⟩,
         ⟨"p2", 2, "int", 4, 10, 0, true, false, none, true⟩] =
      .ok [PyValue.vInt 5, PyValue.vNone] ∧
    (inputParameters
        [⟨"p1", 1, "int", 4, 10, 0, false, false, none, false⟩,
         ⟨"p2", 2, "int", 4, 10, 0, true, false, none, true⟩]).length = 1 := by
  decide

/-- C2: the claim states that a string value "12.34" for a decimal(5,2)
descriptor marshals to the exact decimal 12.34.  In the source,
`validate_parameter` consults `TYPE_MAPPING`, which maps `str` only to
the character types, so the pipeline rejects the value as
`IncompatibleType` before conversion ever runs — even though
`convert_python_to_sql` itself (third conjunct) would convert the same
string to the exact decimal 12.34 (significand 1234, exponent 2), making
that string branch unreachable through the pipeline. -/
theorem decimal_string_rejected_by_compatibility_validation :
    convert_parameters_for_execution [("p1", PyValue.vStr "12.34")]
        [⟨"p1", 1, "decimal", 5, 5, 2, false, false, none, true⟩] =
      .error (.incompatibleType "p1" "decimal") ∧
    validate_parameter "p1" (PyValue.vStr "12.34") "decimal" true false =
      .error (.incompatibleType "p1" "decimal") ∧
    convert_python_to_sql (PyValue.vStr "12.34") "decimal" 5 5 2 =
      .ok (PyValue.vDecimal ⟨1234, 2⟩) := by
  decide

/-- C9: for every boolean input supplied for a descriptor of declared
type int, bigint, smallint or tinyint, validation accepts the boolean
(booleans match the `int` row of `TYPE_MAPPING`, whose list contains all
four integer type names) and conversion yields 1 for true and 0 for
false; consequently the whole pipeline succeeds with that integer. -/
theorem bool_accepted_for_integer_types (b : Bool) :
    (validate_parameter "p1" (PyValue.vBool b) "int" false false = .ok () ∧
     validate_parameter "p1" (PyValue.vBool b) "bigint" false false = .ok () ∧
     validate_parameter "p1" (PyValue.vBool b) "smallint" false false = .ok () ∧
     validate_parameter "p1" (PyValue.vBool b) "tinyint" false false = .ok ()) ∧
    (convert_python_to_sql (PyValue.vBool b) "int" (-1) 0 0 =
       .ok (PyValue.vInt (if b then 1 else 0)) ∧
     convert_python_to_sql (PyValue.vBool b) "bigint" (-1) 0 0 =
       .ok (PyValue.vInt (if b then 1 else 0)) ∧
     convert_python_to_sql (PyValue.vBool b) "smallint" (-1) 0 0 =
       .ok (PyValue.vInt (if b then 1 else 0)) ∧
     convert_python_to_sql (PyValue.vBool b) "tinyint" (-1) 0 0 =
       .ok (PyValue.vInt (if b then 1 else 0))) ∧
    (convert_parameters_for_execution [("p1", PyValue.vBool b)]
        [⟨"p1", 1, "int", 4, 10, 0, false, false, none, false⟩] =
       .ok [PyValue.vInt (if b then 1 else 0)] ∧
     convert_parameters_for_execution [("p1", PyValue.vBool b)]
        [⟨"p1", 1, "bigint", 8, 19, 0, false, false, none, false⟩] =
       .ok [PyValue.vInt (if b then 1 else 0)] ∧
     convert_parameters_for_execution [("p1", PyValue.vBool b)]
        [⟨"p1", 1, "smallint", 2, 5, 0, false, false, none, false⟩] =
       .ok [PyValue.vInt (if b then 1 else 0)] ∧
     convert_parameters_for_execution [("p1", PyValue.vBool b)]
        [⟨"p1", 1, "tinyint", 1, 3, 0, false, false, none, false⟩] =
       .ok [PyValue.vInt (if b then 1 else 0)]) := by
  cases b <;> decide

/-- C5: for both submissions, when the RUNNING count has reached the
maximum the submission fails with the capacity error and the registry is
returned unchanged; below the limit, with a freshly drawn identifier not
present in the map, exactly one new RUNNING session is appended under
that identifier and the identifier is returned.  Each submission is a
single transition (the source performs the check and the insertion inside
one `with self._lock` block). -/
theorem submit_capacity_check_atomic (st : RegState) (q nm : String)
    (ps : List (String × PyValue)) (db : Option String) (t : Nat)
    (id : String) (now : Int) :
    (st.maxSessions ≤ runningCount st →
       start_query st q db t id now = (st, .error (capacityMessage st.maxSessions)) ∧
       start_stored_procedure st nm ps db t id now =
         (st, .error (capacityMessage st.maxSessions))) ∧
    (runningCount st < st.maxSessions → lookupSession st id = none →
       start_query st q db t id now =
         ({ st with sessions := st.sessions ++ [(id, mkQuerySession id q db t now)] },
          .ok id) ∧
       start_stored_procedure st nm ps db t id now =
         ({ st with sessions := st.sessions ++ [(id, mkProcSession id nm ps db t now)] },
          .ok id) ∧
       (mkQuerySession id q db t now).status = .running ∧
       (mkProcSession id nm ps db t now).status = .running ∧
       (∀ p ∈ st.sessions, p.1 ≠ id) ∧
       lookupSession (start_query st q db t id now).1 id =
         some (mkQuerySession id q db t now) ∧
       lookupSession (start_stored_procedure st nm ps db t id now).1 id =
         some (mkProcSession id nm ps db t now)) := by
  constructor
  · intro hcap
    unfold start_query start_stored_procedure
    rw [if_pos hcap, if_pos hcap]
    exact ⟨rfl, rfl⟩
  · intro hcap hfresh
    have hnot : ¬ st.maxSessions ≤ runningCount st := Nat.not_le.mpr hcap
    have h1 : start_query st q db t id now =
        ({ st with sessions := st.sessions ++ [(id, mkQuerySession id q db t now)] },
         .ok id) := by
      unfold start_query
      rw [if_neg hnot]
    have h2 : start_stored_procedure st nm ps db t id now =
        ({ st with sessions := st.sessions ++ [(id, mkProcSession id nm ps db t now)] },
         .ok id) := by
      unfold start_stored_procedure
      rw [if_neg hnot]
    refine ⟨h1, h2, rfl, rfl, lookupSession_none_keys hfresh, ?_, ?_⟩
    · rw [h1]
      exact lookupSession_append_fresh st id _ hfresh
    · rw [h2]
      exact lookupSession_append_fresh st id _ hfresh

/-- Witness for C5: a manager with limit 1 and one RUNNING session
rejects a further submission unchanged; a fresh manager with limit 2
accepts one and returns the drawn identifier. -/
theorem submit_capacity_check_atomic_witness :
    start_query (regRun 1 [RegEvent.submitQuery "a" "q" none 30 0]) "q2" none 30 "b" 1 =
      (regRun 1 [RegEvent.submitQuery "a" "q" none 30 0], .error (capacityMessage 1)) ∧
    (start_query (initRegState 2) "SELECT 1" none 30 "c" 0).2 = .ok "c" := by
  constructor
  · exact ((submit_capacity_check_atomic (regRun 1 [RegEvent.submitQuery "a" "q" none 30 0])
        "q2" "pr" [] none 30 "b" 1).1 (by decide)).1
  · have h := ((submit_capacity_check_atomic (initRegState 2) "SELECT 1" "pr" []
        none 30 "c" 0).2 (by decide) (by decide)).1
    rw [h]

/-- The removal predicate of the sweep, rephrased: terminal (not RUNNING)
with an end timestamp strictly older than the cutoff. -/
theorem sessionExpired_iff (s : QuerySession) (now : Int) :
    sessionExpired s now = true ↔
      (s.status ≠ .running ∧
        ∃ t, s.end_time = some t ∧ t < now - CLEANUP_INTERVAL_TICKS) := by
  unfold sessionExpired QuerySession.is_running
  cases he : s.end_time with
  | none => simp
  | some t =>
      simp only [Bool.and_eq_true, decide_eq_true_eq, Bool.not_eq_true',
        decide_eq_false_iff_not]
      constructor
      · rintro ⟨hlt, hnr⟩
        exact ⟨hnr, t, rfl, hlt⟩
      · rintro ⟨hnr, t2, ht2, hlt⟩
        injection ht2 with ht2e
        rw [ht2e]
        exact ⟨hlt, hnr⟩

/-- C7: the sweep removes exactly the sessions that are terminal and
whose end timestamp is older than now minus the retention window, returns
the number removed, and never removes a RUNNING session. -/
theorem cleanup_removes_exactly_expired_terminal (st : RegState) (now : Int) :
    ((cleanup_completed_sessions st now).2 +
        (cleanup_completed_sessions st now).1.sessions.length =
      st.sessions.length) ∧
    (∀ p : String × QuerySession,
        p ∈ (cleanup_completed_sessions st now).1.sessions ↔
          (p ∈ st.sessions ∧
            ¬(p.2.status ≠ .running ∧
               ∃ t, p.2.end_time = some t ∧ t < now - CLEANUP_INTERVAL_TICKS))) ∧
    (∀ p ∈ st.sessions, p.2.status = .running →
        p ∈ (cleanup_completed_sessions st now).1.sessions) := by
  simp only [cleanup_completed_sessions]
  refine ⟨?_, ?_, ?_⟩
  · have h := List.length_eq_length_filter_add
      (l := st.sessions) (fun p => sessionExpired p.2 now)
    omega
  · intro p
    rw [List.mem_filter]
    have hiff := sessionExpired_iff p.2 now
    constructor
    · rintro ⟨hp, hb⟩
      refine ⟨hp, fun hc => ?_⟩
      rw [hiff.mpr hc] at hb
      simp at hb
    · rintro ⟨hp, hc⟩
      refine ⟨hp, ?_⟩
      cases hb : sessionExpired p.2 now with
      | true => exact absurd (hiff.mp hb) hc
      | false => simp
  · intro p hp hrun
    rw [List.mem_filter]
    refine ⟨hp, ?_⟩
    cases hb : sessionExpired p.2 now with
    | true => exact absurd hrun ((sessionExpired_iff p.2 now).mp hb).1
    | false => simp

/-- Witness for C7: after one FAILED session (ended at tick 10) and one
RUNNING session, a sweep at tick 2000 has removed the failed entry while
the RUNNING session is still present. -/
theorem cleanup_removes_exactly_expired_terminal_witness :
    ("b", mkQuerySession "b" "q2" none 30 20) ∈
      (cleanup_completed_sessions
        (regRun 3 [RegEvent.submitQuery "a" "q" none 30 0,
                   RegEvent.workerFailure "a" "boom" 10,
                   RegEvent.submitQuery "b" "q2" none 30 20]) 2000).1.sessions ∧
    (cleanup_completed_sessions
        (regRun 3 [RegEvent.submitQuery "a" "q" none 30 0,
                   RegEvent.workerFailure "a" "boom" 10,
                   RegEvent.submitQuery "b" "q2" none 30 20]) 2000).2 = 1 := by
  constructor
  · exact (cleanup_removes_exactly_expired_terminal
        (regRun 3 [RegEvent.submitQuery "a" "q" none 30 0,
                   RegEvent.workerFailure "a" "boom" 10,
                   RegEvent.submitQuery "b" "q2" none 30 20]) 2000).2.2
      ("b", mkQuerySession "b" "q2" none 30 20) (by decide) (by decide)
  · decide

/-- Replacing the entry under a key makes a lookup of that key return the
newly stored record. -/
theorem capLookup_capInsert_self (cache : List (String × ServerCapability × Int))
    (key : String) (cap : ServerCapability) (ts : Int) :
    capLookup (capInsert cache key cap ts) key = some (cap, ts) := by
  unfold capLookup capInsert
  cases hf : cache.find? (fun p => p.1 == key) with
  | some q =>
      rw [if_pos (by simp)]
      rw [find?_key_map_update cache key (cap, ts) (by rw [hf]; rfl)]
      rfl
  | none =>
      rw [if_neg (by simp)]
      rw [List.find?_append, hf]
      simp [List.find?]

/-- C8: for a key with a cached entry, a call strictly less than 60
minutes after the stored timestamp returns the identical cached record
with no detection and leaves the state unchanged; a call 60 minutes or
more after the stored timestamp performs exactly one fresh detection
(flag `true`) and wholesale-replaces the entry for that key with the
fresh record under the current timestamp. -/
theorem capability_cache_ttl_behaviour (st : CapState) (db : Option String)
    (cap fresh : ServerCapability) (ts now : Int)
    (h : capLookup st.cache (capCacheKey st.connection_string db) = some (cap, ts)) :
    (now - ts < CACHE_TTL_TICKS →
       get_capabilities st db now fresh = (cap, st, false)) ∧
    (CACHE_TTL_TICKS ≤ now - ts →
       get_capabilities st db now fresh =
         (fresh,
          { st with cache :=
              capInsert st.cache (capCacheKey st.connection_string db) fresh now },
          true) ∧
       capLookup (get_capabilities st db now fresh).2.1.cache
           (capCacheKey st.connection_string db) = some (fresh, now)) := by
  constructor
  · intro hlt
    simp only [get_capabilities, h]
    rw [if_pos hlt]
  · intro hge
    have hnlt : ¬(now - ts < CACHE_TTL_TICKS) := not_lt.mpr hge
    constructor
    · simp only [get_capabilities, h]
      rw [if_neg hnlt]
    · simp only [get_capabilities, h]
      rw [if_neg hnlt]
      exact capLookup_capInsert_self st.cache (capCacheKey st.connection_string db)
        fresh now

/-- Witness for C8: with an entry cached at tick 0, a call at tick 100
returns it unchanged with no detection, and a call at tick 3600 detects
and replaces it. -/
theorem capability_cache_ttl_behaviour_witness :
    get_capabilities ⟨"cs", [("cs|db", sampleCapabilityA, 0)]⟩ (some "db") 100
        sampleCapabilityB =
      (sampleCapabilityA, ⟨"cs", [("cs|db", sampleCapabilityA, 0)]⟩, false) ∧
    capLookup (get_capabilities ⟨"cs", [("cs|db", sampleCapabilityA, 0)]⟩ (some "db")
        3600 sampleCapabilityB).2.1.cache "cs|db" = some (sampleCapabilityB, 3600) := by
  constructor
  · exact (capability_cache_ttl_behaviour ⟨"cs", [("cs|db", sampleCapabilityA, 0)]⟩
        (some "db") sampleCapabilityA sampleCapabilityB 0 100 (by decide)).1 (by decide)
  · exact ((capability_cache_ttl_behaviour ⟨"cs", [("cs|db", sampleCapabilityA, 0)]⟩
        (some "db") sampleCapabilityA sampleCapabilityB 0 3600 (by decide)).2
      (by decide)).2

/-- C10: `start_query` performs no validation of the query text — for
every string, including the empty string, a submission below the
capacity limit with a fresh identifier is admitted as a RUNNING session
carrying exactly that text and the identifier is returned; a later
failure is recorded by the worker as the session's FAILED terminal
error.  The synchronous `execute_query`, by contrast, rejects empty or
whitespace-only text with an error and without opening a connection. -/
theorem start_query_no_text_validation (st : RegState) (q wq : String)
    (db : Option String) (t : Nat) (id : String) (now failTime : Int) (msg : String)
    (hcap : runningCount st < st.maxSessions)
    (hfresh : lookupSession st id = none)
    (hfin : st.finished.contains id = false)
    (hws : pyStrip wq = "") :
    ((start_query st q db t id now).2 = .ok id ∧
     lookupSession (start_query st q db t id now).1 id =
       some (mkQuerySession id q db t now) ∧
     (mkQuerySession id q db t now).status = .running ∧
     (mkQuerySession id q db t now).query = q) ∧
    lookupSession
        (workerFinishFailure (start_query st q db t id now).1 id msg failTime) id =
      some (failedWrite (mkQuerySession id q db t now) msg failTime) ∧
    executeQueryRun wq = ([], .error "Query cannot be empty") ∧
    DbEffect.executionConnectionOpened ∉ (executeQueryRun wq).1 := by
  have hnot : ¬ st.maxSessions ≤ runningCount st := Nat.not_le.mpr hcap
  have h1 : start_query st q db t id now =
      ({ st with sessions := st.sessions ++ [(id, mkQuerySession id q db t now)] },
       .ok id) := by
    unfold start_query
    rw [if_neg hnot]
  have hlook : lookupSession (start_query st q db t id now).1 id =
      some (mkQuerySession id q db t now) := by
    rw [h1]
    exact lookupSession_append_fresh st id _ hfresh
  have hrun : executeQueryRun wq = ([], .error "Query cannot be empty") := by
    unfold executeQueryRun
    rw [if_pos (by rw [hws]; simp)]
  refine ⟨⟨by rw [h1], hlook, rfl, rfl⟩, ?_, hrun, ?_⟩
  · unfold workerFinishFailure
    have hfin1 : (start_query st q db t id now).1.finished.contains id = false := by
      rw [h1]
      exact hfin
    rw [if_neg (by rw [hfin1]; simp), hlook, lookupSession_set_finished]
    exact lookupSession_update_self _ hlook
  · rw [hrun]
    simp

/-- Witness for C10: the empty query string is admitted by `start_query`
on a fresh manager and rejected by `execute_query`. -/
theorem start_query_no_text_validation_witness :
    (start_query (initRegState 2) "" none 30 "w10" 0).2 = .ok "w10" ∧
    executeQueryRun "  " = ([], .error "Query cannot be empty") := by
  have h := start_query_no_text_validation (initRegState 2) "" "  " none 30 "w10" 0 7
      "server error" (by decide) (by decide) (by decide) (by decide)
  exact ⟨h.1.1, h.2.2.1⟩

/-- C6 counterexample: the claim states a marshaling failure is surfaced
to the caller before any worker slot is consumed and before any database
connection is opened.  On this concrete background submission (a required
parameter missing), the submission itself succeeds and returns the
session identifier, a worker slot is consumed and the metadata connection
is opened and closed before the marshaling failure occurs, and the
failure is only recorded as the session's FAILED terminal error. -/
theorem background_marshal_failure_after_slot_and_connection :
    (backgroundStoredProcedureRun (initRegState 3) "dbo.q" [] none 30 "x6" 0
        [⟨"pr", 1, "int", 4, 10, 0, false, false, none, false⟩] "" 0).2.2 =
      [DbEffect.workerSlotConsumed "x6", DbEffect.metadataConnectionOpened,
       DbEffect.connectionClosed,
       DbEffect.marshalingFailed (.missingRequiredParameter "pr")] ∧
    (backgroundStoredProcedureRun (initRegState 3) "dbo.q" [] none 30 "x6" 0
        [⟨"pr", 1, "int", 4, 10, 0, false, false, none, false⟩] "" 0).2.1 =
      .ok "x6" ∧
    (lookupSession (backgroundStoredProcedureRun (initRegState 3) "dbo.q" [] none 30
        "x6" 0 [⟨"pr", 1, "int", 4, 10, 0, false, false, none, false⟩] "" 0).1
        "x6").map (fun s => (s.status, s.error)) =
      some (.failed, some (marshalErrorMessage (.missingRequiredParameter "pr"))) := by
  decide

/-- C6 (amended): a marshaling failure short-circuits before the
execution connection is opened, in both the synchronous and the
background path; on the synchronous path it is raised to the caller,
while on the background path the session has already been admitted (a
worker slot consumed) and the metadata connection opened, and the
failure is recorded as the session's FAILED terminal error instead of
being surfaced at submission. -/
theorem marshal_failure_short_circuits_execution (pn : String)
    (params : List (String × PyValue)) (meta : List StoredProcedureParameter)
    (e : MarshalError) (st : RegState) (db : Option String) (t : Nat)
    (id : String) (now : Int) (er : String) (rc : Nat)
    (hm : convert_parameters_for_execution params meta = .error e)
    (hpn : ¬ pyStrip pn = "")
    (hcap : runningCount st < st.maxSessions)
    (hfresh : lookupSession st id = none)
    (hfin : st.finished.contains id = false) :
    (executeStoredProcedureRun pn params meta).2 = .error (.marshal e) ∧
    DbEffect.executionConnectionOpened ∉ (executeStoredProcedureRun pn params meta).1 ∧
    (backgroundStoredProcedureRun st pn params db t id now meta er rc).2.1 =
      .ok id ∧
    DbEffect.executionConnectionOpened ∉
      (backgroundStoredProcedureRun st pn params db t id now meta er rc).2.2 ∧
    (lookupSession
        (backgroundStoredProcedureRun st pn params db t id now meta er rc).1 id).map
        (fun s => (s.status, s.error)) =
      some (.failed, some (marshalErrorMessage e)) := by
  have hfg : executeStoredProcedureRun pn params meta =
      ([DbEffect.metadataConnectionOpened, DbEffect.connectionClosed],
       .error (.marshal e)) := by
    unfold executeStoredProcedureRun
    rw [if_neg hpn, hm]
  have hnot : ¬ st.maxSessions ≤ runningCount st := Nat.not_le.mpr hcap
  have h2 : start_stored_procedure st pn params db t id now =
      ({ st with sessions := st.sessions ++ [(id, mkProcSession id pn params db t now)] },
       .ok id) := by
    unfold start_stored_procedure
    rw [if_neg hnot]
  have hbg : backgroundStoredProcedureRun st pn params db t id now meta er rc =
      (workerFinishFailure
        { st with sessions := st.sessions ++ [(id, mkProcSession id pn params db t now)] }
        id (marshalErrorMessage e) now,
       .ok id,
       [DbEffect.workerSlotConsumed id, DbEffect.metadataConnectionOpened,
        DbEffect.connectionClosed, DbEffect.marshalingFailed e]) := by
    unfold backgroundStoredProcedureRun
    rw [h2, hm]
    rfl
  have hlook1 : lookupSession
      ({ st with sessions := st.sessions ++ [(id, mkProcSession id pn params db t now)] } :
        RegState) id = some (mkProcSession id pn params db t now) :=
    lookupSession_append_fresh st id _ hfresh
  refine ⟨by rw [hfg], by rw [hfg]; simp, by rw [hbg], by rw [hbg]; simp, ?_⟩
  rw [hbg]
  unfold workerFinishFailure
  rw [if_neg (by rw [show ({ st with sessions := st.sessions ++
        [(id, mkProcSession id pn params db t now)] } : RegState).finished =
        st.finished from rfl, hfin]; simp),
     hlook1, lookupSession_set_finished]
  rw [lookupSession_update_self _ hlook1]
  rfl

/-- Witness for C6: the amended theorem instantiated on a concrete
submission with a missing required parameter. -/
theorem marshal_failure_short_circuits_execution_witness :
    (backgroundStoredProcedureRun (initRegState 2) "dbo.p" [] none 30 "w6" 0
        [⟨"p1", 1, "int", 4, 10, 0, false, false, none, false⟩] "" 0).2.1 =
      .ok "w6" ∧
    DbEffect.executionConnectionOpened ∉
      (backgroundStoredProcedureRun (initRegState 2) "dbo.p" [] none 30 "w6" 0
        [⟨"p1", 1, "int", 4, 10, 0, false, false, none, false⟩] "" 0).2.2 := by
  have h := marshal_failure_short_circuits_execution "dbo.p" []
      [⟨"p1", 1, "int", 4, 10, 0, false, false, none, false⟩]
      (.missingRequiredParameter "p1") (initRegState 2) none 30 "w6" 0 "" 0
      (by decide) (by decide) (by decide) (by decide) (by decide)
  exact ⟨h.2.2.1, h.2.2.2.1⟩

/-! ## Reachability invariant of the session registry -/

/-- `entryInv` introduction for a RUNNING session. -/
theorem entryInv_of_running (finished : List String) (id : String) (s : QuerySession)
    (hst : s.status = .running) (hend : s.end_time = none) (hres : s.results = none)
    (herr : s.error = none) (hfin : id ∉ finished) :
    entryInv finished (id, s) :=
  ⟨fun _ => ⟨hend, hres, herr, hfin⟩,
   fun hc => absurd (hst.symm.trans hc) (by decide),
   fun hc => absurd (hst.symm.trans hc) (by decide),
   fun hc => absurd (hst.symm.trans hc) (by decide)⟩

/-- `entryInv` introduction for a COMPLETED session. -/
theorem entryInv_of_completed (finished : List String) (id : String) (s : QuerySession)
    (hst : s.status = .completed) (hend : s.end_time ≠ none) (hres : s.results ≠ none)
    (herr : s.error = none ∨ s.error = some CANCEL_MESSAGE) (hfin : id ∈ finished) :
    entryInv finished (id, s) :=
  ⟨fun hc => absurd (hst.symm.trans hc) (by decide),
   fun _ => ⟨hend, hres, herr, hfin⟩,
   fun hc => absurd (hst.symm.trans hc) (by decide),
   fun hc => absurd (hst.symm.trans hc) (by decide)⟩

/-- `entryInv` introduction for a FAILED session. -/
theorem entryInv_of_failed (finished : List String) (id : String) (s : QuerySession)
    (hst : s.status = .failed) (hend : s.end_time ≠ none) (herr : s.error ≠ none)
    (hres : s.results = none) (hfin : id ∈ finished) :
    entryInv finished (id, s) :=
  ⟨fun hc => absurd (hst.symm.trans hc) (by decide),
   fun hc => absurd (hst.symm.trans hc) (by decide),
   fun _ => ⟨hend, herr, hres, hfin⟩,
   fun hc => absurd (hst.symm.trans hc) (by decide)⟩

/-- `entryInv` introduction for a CANCELLED session. -/
theorem entryInv_of_cancelled (finished : List String) (id : String) (s : QuerySession)
    (hst : s.status = .cancelled) (hend : s.end_time ≠ none)
    (herr : s.error = some CANCEL_MESSAGE) (hres : s.results = none)
    (hfin : id ∉ finished) :
    entryInv finished (id, s) :=
  ⟨fun hc => absurd (hst.symm.trans hc) (by decide),
   fun hc => absurd (hst.symm.trans hc) (by decide),
   fun hc => absurd (hst.symm.trans hc) (by decide),
   fun _ => ⟨hend, herr, hres, hfin⟩⟩

/-- `entryInv` survives recording another session's worker as finished. -/
theorem entryInv_extend (finished : List String) (id : String)
    (p : String × QuerySession) (h : entryInv finished p) (hne : p.1 ≠ id) :
    entryInv (finished ++ [id]) p := by
  obtain ⟨h1, h2, h3, h4⟩ := h
  have hout : p.1 ∉ finished → p.1 ∉ finished ++ [id] := by
    intro hn hmem
    rcases List.mem_append.mp hmem with hm | hm
    · exact hn hm
    · simp at hm
      exact hne hm
  have hin : p.1 ∈ finished → p.1 ∈ finished ++ [id] := fun hm =>
    List.mem_append.mpr (Or.inl hm)
  refine ⟨?_, ?_, ?_, ?_⟩
  · intro hs
    obtain ⟨a, b, c, d⟩ := h1 hs
    exact ⟨a, b, c, hout d⟩
  · intro hs
    obtain ⟨a, b, c, d⟩ := h2 hs
    exact ⟨a, b, c, hin d⟩
  · intro hs
    obtain ⟨a, b, c, d⟩ := h3 hs
    exact ⟨a, b, c, hin d⟩
  · intro hs
    obtain ⟨a, b, c, d⟩ := h4 hs
    exact ⟨a, b, c, hout d⟩

/-- Inserting a fresh RUNNING session preserves the registry invariant. -/
theorem regInv_insert_running (st : RegState) (id : String) (s : QuerySession)
    (hinv : regInv st) (hst : s.status = .running) (hend : s.end_time = none)
    (hres : s.results = none) (herr : s.error = none)
    (hfree : ∀ p ∈ st.sessions, p.1 ≠ id) (hfin : id ∉ st.finished) :
    regInv { st with sessions := st.sessions ++ [(id, s)] } := by
  obtain ⟨hnd, hall⟩ := hinv
  constructor
  · show ((st.sessions ++ [(id, s)]).map Prod.fst).Nodup
    rw [List.map_append, List.nodup_append]
    refine ⟨hnd, by simp, ?_⟩
    intro x hx hx2
    rcases List.mem_map.mp hx with ⟨p, hp, hpx⟩
    simp at hx2
    exact hfree p hp (by rw [hpx, hx2])
  · show ∀ p ∈ st.sessions ++ [(id, s)], entryInv st.finished p
    intro p hp
    rcases List.mem_append.mp hp with h1 | h1
    · exact hall p h1
    · have hpe : p = (id, s) := by simpa using h1
      rw [hpe]
      exact entryInv_of_running st.finished id s hst hend hres herr hfin

/-- One registry transition preserves the invariant. -/
theorem regInv_step (st : RegState) (e : RegEvent) (hinv : regInv st) :
    regInv (regStep st e) := by
  obtain ⟨hnd, hall⟩ := hinv
  cases e with
  | submitQuery id q db t now =>
      show regInv (if st.finished.contains id || (lookupSession st id).isSome then st
        else (start_query st q db t id now).1)
      cases hg : st.finished.contains id || (lookupSession st id).isSome with
      | true =>
          rw [if_pos rfl]
          exact ⟨hnd, hall⟩
      | false =>
          rw [if_neg (by simp)]
          have hc1 : st.finished.contains id = false := by
            cases hcc : st.finished.contains id
            · rfl
            · rw [hcc] at hg; simp at hg
          have hfresh : lookupSession st id = none := by
            cases hll : lookupSession st id
            · rfl
            · rw [hll] at hg; simp at hg
          have hfin : id ∉ st.finished := (contains_false_iff _ _).mp hc1
          unfold start_query
          by_cases hcap : st.maxSessions ≤ runningCount st
          · rw [if_pos hcap]
            exact ⟨hnd, hall⟩
          · rw [if_neg hcap]
            exact regInv_insert_running st id _ ⟨hnd, hall⟩ rfl rfl rfl rfl
              (lookupSession_none_keys hfresh) hfin
  | submitProc id nm ps db t now =>
      show regInv (if st.finished.contains id || (lookupSession st id).isSome then st
        else (start_stored_procedure st nm ps db t id now).1)
      cases hg : st.finished.contains id || (lookupSession st id).isSome with
      | true =>
          rw [if_pos rfl]
          exact ⟨hnd, hall⟩
      | false =>
          rw [if_neg (by simp)]
          have hc1 : st.finished.contains id = false := by
            cases hcc : st.finished.contains id
            · rfl
            · rw [hcc] at hg; simp at hg
          have hfresh : lookupSession st id = none := by
            cases hll : lookupSession st id
            · rfl
            · rw [hll] at hg; simp at hg
          have hfin : id ∉ st.finished := (contains_false_iff _ _).mp hc1
          unfold start_stored_procedure
          by_cases hcap : st.maxSessions ≤ runningCount st
          · rw [if_pos hcap]
            exact ⟨hnd, hall⟩
          · rw [if_neg hcap]
            exact regInv_insert_running st id _ ⟨hnd, hall⟩ rfl rfl rfl rfl
              (lookupSession_none_keys hfresh) hfin
  | workerSuccess id res rc now =>
      show regInv (workerFinishSuccess st id res rc now)
      unfold workerFinishSuccess
      cases hc : st.finished.contains id with
      | true =>
          rw [if_pos rfl]
          exact ⟨hnd, hall⟩
      | false =>
          rw [if_neg (by simp)]
          have hfin : id ∉ st.finished := (contains_false_iff _ _).mp hc
          cases hl : lookupSession st id with
          | none =>
              show regInv ⟨st.sessions, st.maxSessions, st.finished ++ [id]⟩
              refine ⟨hnd, ?_⟩
              intro p hp
              exact entryInv_extend st.finished id p (hall p hp)
                (lookupSession_none_keys hl p hp)
          | some sess =>
              obtain ⟨hi1, hi2, hi3, hi4⟩ := hall _ (lookupSession_mem hl)
              show regInv ⟨st.sessions.map (fun p => if p.1 == id then
                  (id, completedWrite sess res rc now) else p),
                st.maxSessions, st.finished ++ [id]⟩
              constructor
              · show ((st.sessions.map _).map Prod.fst).Nodup
                rw [keys_map_update]
                exact hnd
              · intro p hp
                rcases mem_map_update hp with h1 | ⟨h1, h2⟩
                · rw [h1]
                  apply entryInv_of_completed
                  · rfl
                  · simp [completedWrite]
                  · simp [completedWrite]
                  · cases hstat : sess.status with
                    | running => exact Or.inl (hi1 hstat).2.2.1
                    | completed => exact absurd (hi2 hstat).2.2.2 hfin
                    | failed => exact absurd (hi3 hstat).2.2.2 hfin
                    | cancelled => exact Or.inr (hi4 hstat).2.1
                  · exact List.mem_append.mpr (Or.inr (by simp))
                · exact entryInv_extend st.finished id p (hall p h1) h2
  | workerFailure id msg now =>
      show regInv (workerFinishFailure st id msg now)
      unfold workerFinishFailure
      cases hc : st.finished.contains id with
      | true =>
          rw [if_pos rfl]
          exact ⟨hnd, hall⟩
      | false =>
          rw [if_neg (by simp)]
          have hfin : id ∉ st.finished := (contains_false_iff _ _).mp hc
          cases hl : lookupSession st id with
          | none =>
              show regInv ⟨st.sessions, st.maxSessions, st.finished ++ [id]⟩
              refine ⟨hnd, ?_⟩
              intro p hp
              exact entryInv_extend st.finished id p (hall p hp)
                (lookupSession_none_keys hl p hp)
          | some sess =>
              obtain ⟨hi1, hi2, hi3, hi4⟩ := hall _ (lookupSession_mem hl)
              show regInv ⟨st.sessions.map (fun p => if p.1 == id then
                  (id, failedWrite sess msg now) else p),
                st.maxSessions, st.finished ++ [id]⟩
              constructor
              · show ((st.sessions.map _).map Prod.fst).Nodup
                rw [keys_map_update]
                exact hnd
              · intro p hp
                rcases mem_map_update hp with h1 | ⟨h1, h2⟩
                · rw [h1]
                  apply entryInv_of_failed
                  · rfl
                  · simp [failedWrite]
                  · simp [failedWrite]
                  · cases hstat : sess.status with
                    | running => exact (hi1 hstat).2.1
                    | completed => exact absurd (hi2 hstat).2.2.2 hfin
                    | failed => exact absurd (hi3 hstat).2.2.2 hfin
                    | cancelled => exact (hi4 hstat).2.2.1
                  · exact List.mem_append.mpr (Or.inr (by simp))
                · exact entryInv_extend st.finished id p (hall p h1) h2
  | cancel id now =>
      show regInv (cancel_session st id now).1
      unfold cancel_session
      cases hl : lookupSession st id with
      | none => exact ⟨hnd, hall⟩
      | some sess =>
          show regInv (if sess.is_running = true then
              (updateSession st id (cancelledWrite sess now), true) else (st, false)).1
          cases hr : sess.is_running with
          | false =>
              rw [if_neg (by simp)]
              exact ⟨hnd, hall⟩
          | true =>
              rw [if_pos rfl]
              have hrun : sess.status = .running := of_decide_eq_true hr
              obtain ⟨hi1, _, _, _⟩ := hall _ (lookupSession_mem hl)
              obtain ⟨hend0, hres0, herr0, hfin0⟩ := hi1 hrun
              show regInv ⟨st.sessions.map (fun p => if p.1 == id then
                  (id, cancelledWrite sess now) else p),
                st.maxSessions, st.finished⟩
              constructor
              · show ((st.sessions.map _).map Prod.fst).Nodup
                rw [keys_map_update]
                exact hnd
              · intro p hp
                rcases mem_map_update hp with h1 | ⟨h1, _⟩
                · rw [h1]
                  apply entryInv_of_cancelled
                  · rfl
                  · simp [cancelledWrite]
                  · rfl
                  · exact hres0
                  · exact hfin0
                · exact hall p h1
  | sweep now =>
      show regInv ⟨st.sessions.filter (fun p => !sessionExpired p.2 now),
        st.maxSessions, st.finished⟩
      constructor
      · exact List.Nodup.sublist
          (List.Sublist.map Prod.fst (List.filter_sublist _)) hnd
      · intro p hp
        exact hall p (List.mem_filter.mp hp).1

/-- The invariant holds along every event sequence. -/
theorem regInv_foldl (es : List RegEvent) (st : RegState) (hinv : regInv st) :
    regInv (es.foldl regStep st) := by
  induction es generalizing st with
  | nil => exact hinv
  | cons e rest ih => exact ih _ (regInv_step st e hinv)

/-- Every reachable registry state satisfies the invariant. -/
theorem regInv_run (m : Nat) (es : List RegEvent) : regInv (regRun m es) :=
  regInv_foldl es (initRegState m)
    ⟨by simp [initRegState], fun p hp => absurd hp (by simp [initRegState])⟩

/-- C4 counterexample: the claim states that every terminal non-CANCELLED
session has exactly one of results/error populated.  On the trace
submit; cancel; worker-success, the worker's unconditional write turns
the CANCELLED session into a COMPLETED one that carries both its results
and the stale cancellation error message. -/
theorem completed_session_with_results_and_error :
    (lookupSession (regRun 4
        [RegEvent.submitQuery "c4" "q" none 30 0, RegEvent.cancel "c4" 1,
         RegEvent.workerSuccess "c4" "ok" 1 2]) "c4").map
      (fun s => (s.status, s.results, s.error)) =
      some (.completed, some "ok", some CANCEL_MESSAGE) := by
  decide

/-- C4 (amended): in every reachable registry state, every FAILED session
has an error and no results, every CANCELLED session has exactly the
fixed cancellation message and no results, and every COMPLETED session
has results and either no error or — when a cancellation raced the
worker's terminal write — the stale fixed cancellation message, the only
way a terminal non-cancelled session can carry both fields. -/
theorem terminal_session_field_invariant (m : Nat) (es : List RegEvent)
    (p : String × QuerySession) (hp : p ∈ (regRun m es).sessions) :
    (p.2.status = .failed → p.2.error ≠ none ∧ p.2.results = none) ∧
    (p.2.status = .cancelled →
       p.2.error = some CANCEL_MESSAGE ∧ p.2.results = none) ∧
    (p.2.status = .completed →
       p.2.results ≠ none ∧
       (p.2.error = none ∨ p.2.error = some CANCEL_MESSAGE)) := by
  obtain ⟨_, hall⟩ := regInv_run m es
  obtain ⟨h1, h2, h3, h4⟩ := hall p hp
  exact ⟨fun hs => ⟨(h3 hs).2.1, (h3 hs).2.2.1⟩,
         fun hs => ⟨(h4 hs).2.1, (h4 hs).2.2.1⟩,
         fun hs => ⟨(h2 hs).2.1, (h2 hs).2.2.1⟩⟩

/-- Witness for C4: the field invariant instantiated on the state reached
by one submission and one worker failure. -/
theorem terminal_session_field_invariant_witness :
    c4FailedSession.error ≠ none ∧ c4FailedSession.results = none :=
  (terminal_session_field_invariant 2
    [RegEvent.submitQuery "a" "q" none 30 0, RegEvent.workerFailure "a" "boom" 1]
    ("a", c4FailedSession) (by decide)).1 rfl

/-- Core stability argument: in an invariant-satisfying state, an entry
that is COMPLETED or FAILED, or that is CANCELLED and the event is not
its own worker's terminal write, survives any single transition
unchanged (whenever an entry under its key is still present). -/
theorem step_preserves_entry (st : RegState) (hinv : regInv st) (id : String)
    (s : QuerySession) (hmem : (id, s) ∈ st.sessions) (e : RegEvent)
    (hcond : (s.status = .completed ∨ s.status = .failed) ∨
             (s.status = .cancelled ∧ isWorkerWriteOn id e = false)) :
    ∀ q ∈ (regStep st e).sessions, q.1 = id → q.2 = s := by
  obtain ⟨hnd, hall⟩ := hinv
  have huniq : ∀ b : QuerySession, (id, b) ∈ st.sessions → b = s := fun b hb =>
    nodup_keys_unique hnd hb hmem
  have hsame : ∀ q : String × QuerySession, q ∈ st.sessions → q.1 = id → q.2 = s := by
    intro q hq hqid
    have hq2 : (id, q.2) ∈ st.sessions := by
      rw [← hqid]
      exact hq
    exact huniq q.2 hq2
  have hnr : s.status ≠ .running := by
    rcases hcond with h | h
    · rcases h with h | h <;> rw [h] <;> decide
    · rw [h.1]
      decide
  cases e with
  | submitQuery id2 q2 db t now =>
      intro q hq hqid
      revert hq
      show q ∈ (if st.finished.contains id2 || (lookupSession st id2).isSome then st
        else (start_query st q2 db t id2 now).1).sessions → q.2 = s
      cases hg : st.finished.contains id2 || (lookupSession st id2).isSome with
      | true =>
          rw [if_pos rfl]
          intro hq
          exact hsame q hq hqid
      | false =>
          rw [if_neg (by simp)]
          have hfresh : lookupSession st id2 = none := by
            cases hll : lookupSession st id2
            · rfl
            · rw [hll] at hg; simp at hg
          unfold start_query
          by_cases hcap : st.maxSessions ≤ runningCount st
          · rw [if_pos hcap]
            intro hq
            exact hsame q hq hqid
          · rw [if_neg hcap]
            intro hq
            rcases List.mem_append.mp hq with h1 | h1
            · exact hsame q h1 hqid
            · exfalso
              have hq2 : q = (id2, mkQuerySession id2 q2 db t now) := by simpa using h1
              have hid : id2 = id := by rw [← hqid, hq2]
              exact lookupSession_none_keys hfresh (id, s) hmem hid.symm
  | submitProc id2 nm ps db t now =>
      intro q hq hqid
      revert hq
      show q ∈ (if st.finished.contains id2 || (lookupSession st id2).isSome then st
        else (start_stored_procedure st nm ps db t id2 now).1).sessions → q.2 = s
      cases hg : st.finished.contains id2 || (lookupSession st id2).isSome with
      | true =>
          rw [if_pos rfl]
          intro hq
          exact hsame q hq hqid
      | false =>
          rw [if_neg (by simp)]
          have hfresh : lookupSession st id2 = none := by
            cases hll : lookupSession st id2
            · rfl
            · rw [hll] at hg; simp at hg
          unfold start_stored_procedure
          by_cases hcap : st.maxSessions ≤ runningCount st
          · rw [if_pos hcap]
            intro hq
            exact hsame q hq hqid
          · rw [if_neg hcap]
            intro hq
            rcases List.mem_append.mp hq with h1 | h1
            · exact hsame q h1 hqid
            · exfalso
              have hq2 : q = (id2, mkProcSession id2 nm ps db t now) := by simpa using h1
              have hid : id2 = id := by rw [← hqid, hq2]
              exact lookupSession_none_keys hfresh (id, s) hmem hid.symm
  | workerSuccess id2 res rc now =>
      intro q hq hqid
      revert hq
      show q ∈ (workerFinishSuccess st id2 res rc now).sessions → q.2 = s
      unfold workerFinishSuccess
      cases hc : st.finished.contains id2 with
      | true =>
          rw [if_pos rfl]
          intro hq
          exact hsame q hq hqid
      | false =>
          rw [if_neg (by simp)]
          have hne : id2 ≠ id := by
            rcases hcond with h | h
            · obtain ⟨_, hi2, hi3, _⟩ := hall _ hmem
              have hidin : id ∈ st.finished := by
                rcases h with h | h
                · exact (hi2 h).2.2.2
                · exact (hi3 h).2.2.2
              intro hEq
              rw [hEq] at hc
              exact (contains_false_iff _ _).mp hc hidin
            · have hw := h.2
              unfold isWorkerWriteOn at hw
              intro hEq
              rw [hEq] at hw
              simp at hw
          cases hl : lookupSession st id2 with
          | none =>
              intro hq
              exact hsame q hq hqid
          | some sess2 =>
              show q ∈ st.sessions.map (fun p => if p.1 == id2 then
                  (id2, completedWrite sess2 res rc now) else p) → q.2 = s
              intro hq
              rcases mem_map_update hq with h1 | ⟨h1, _⟩
              · exfalso
                exact hne (by rw [← hqid, h1])
              · exact hsame q h1 hqid
  | workerFailure id2 msg now =>
      intro q hq hqid
      revert hq
      show q ∈ (workerFinishFailure st id2 msg now).sessions → q.2 = s
      unfold workerFinishFailure
      cases hc : st.finished.contains id2 with
      | true =>
          rw [if_pos rfl]
          intro hq
          exact hsame q hq hqid
      | false =>
          rw [if_neg (by simp)]
          have hne : id2 ≠ id := by
            rcases hcond with h | h
            · obtain ⟨_, hi2, hi3, _⟩ := hall _ hmem
              have hidin : id ∈ st.finished := by
                rcases h with h | h
                · exact (hi2 h).2.2.2
                · exact (hi3 h).2.2.2
              intro hEq
              rw [hEq] at hc
              exact (contains_false_iff _ _).mp hc hidin
            · have hw := h.2
              unfold isWorkerWriteOn at hw
              intro hEq
              rw [hEq] at hw
              simp at hw
          cases hl : lookupSession st id2 with
          | none =>
              intro hq
              exact hsame q hq hqid
          | some sess2 =>
              show q ∈ st.sessions.map (fun p => if p.1 == id2 then
                  (id2, failedWrite sess2 msg now) else p) → q.2 = s
              intro hq
              rcases mem_map_update hq with h1 | ⟨h1, _⟩
              · exfalso
                exact hne (by rw [← hqid, h1])
              · exact hsame q h1 hqid
  | cancel id2 now =>
      intro q hq hqid
      revert hq
      show q ∈ (cancel_session st id2 now).1.sessions → q.2 = s
      unfold cancel_session
      cases hl : lookupSession st id2 with
      | none =>
          intro hq
          exact hsame q hq hqid
      | some sess2 =>
          show q ∈ (if sess2.is_running = true then
              (updateSession st id2 (cancelledWrite sess2 now), true)
            else (st, false)).1.sessions → q.2 = s
          cases hr : sess2.is_running with
          | false =>
              rw [if_neg (by simp)]
              intro hq
              exact hsame q hq hqid
          | true =>
              rw [if_pos rfl]
              have hrun2 : sess2.status = .running := of_decide_eq_true hr
              have hne : id2 ≠ id := by
                intro hEq
                have hmem2 := lookupSession_mem hl
                rw [hEq] at hmem2
                have hss := huniq sess2 hmem2
                rw [hss] at hrun2
                exact hnr hrun2
              show q ∈ st.sessions.map (fun p => if p.1 == id2 then
                  (id2, cancelledWrite sess2 now) else p) → q.2 = s
              intro hq
              rcases mem_map_update hq with h1 | ⟨h1, _⟩
              · exfalso
                exact hne (by rw [← hqid, h1])
              · exact hsame q h1 hqid
  | sweep now =>
      intro q hq hqid
      have hq2 : q ∈ st.sessions.filter (fun p => !sessionExpired p.2 now) := hq
      exact hsame q (List.mem_filter.mp hq2).1 hqid

/-- C3 counterexample: the claim states that after cancel marks a RUNNING
session CANCELLED, a later terminal write by the session's worker does
not overwrite the CANCELLED status.  On the trace submit; cancel, the
session is CANCELLED, and the worker's subsequent success write
overwrites it to COMPLETED — the last write wins, not the first. -/
theorem cancelled_status_overwritten_by_worker_write :
    (lookupSession (regRun 2
        [RegEvent.submitQuery "s1" "SELECT 1" none 30 0,
         RegEvent.cancel "s1" 1]) "s1").map (fun s => s.status) =
      some .cancelled ∧
    (lookupSession (regRun 2
        [RegEvent.submitQuery "s1" "SELECT 1" none 30 0,
         RegEvent.cancel "s1" 1,
         RegEvent.workerSuccess "s1" "r" 0 9]) "s1").map (fun s => s.status) =
      some .completed := by
  decide

/-- C3 (amended): in every reachable registry state, a session that is
COMPLETED or FAILED is never changed by any later transition (while an
entry under its key remains present); a CANCELLED session is preserved by
every transition except its own worker's terminal write, which overwrites
it — in the cancel/worker race, whichever terminal write occurs last
wins. -/
theorem terminal_status_stability (m : Nat) (es : List RegEvent) (id : String)
    (s : QuerySession) (hp : (id, s) ∈ (regRun m es).sessions) (e : RegEvent) :
    ((s.status = .completed ∨ s.status = .failed) →
       ∀ q ∈ (regStep (regRun m es) e).sessions, q.1 = id → q.2 = s) ∧
    (s.status = .cancelled → isWorkerWriteOn id e = false →
       ∀ q ∈ (regStep (regRun m es) e).sessions, q.1 = id → q.2 = s) :=
  ⟨fun hs => step_preserves_entry (regRun m es) (regInv_run m es) id s hp e
      (Or.inl hs),
   fun hs hw => step_preserves_entry (regRun m es) (regInv_run m es) id s hp e
      (Or.inr ⟨hs, hw⟩)⟩

/-- Witness for C3: the stability theorem instantiated on the state
reached by one submission and one worker success, stepped by a cancel. -/
theorem terminal_status_stability_witness :
    ("a", c3CompletedSession) ∈
      (regStep (regRun 2 [RegEvent.submitQuery "a" "q" none 30 0,
          RegEvent.workerSuccess "a" "r" 1 1]) (RegEvent.cancel "a" 2)).sessions ∧
    ("a", c3CompletedSession).2 = c3CompletedSession :=
  ⟨by decide,
   (terminal_status_stability 2
      [RegEvent.submitQuery "a" "q" none 30 0, RegEvent.workerSuccess "a" "r" 1 1]
      "a" c3CompletedSession (by decide) (RegEvent.cancel "a" 2)).1 (Or.inl rfl)
     ("a", c3CompletedSession) (by decide) rfl⟩

end MssqlMcp
